import Mathlib

/-!
Verification of the filename categorizer, gallery HTML renderer, splice/update
step and auxiliary scripts of the tozan-website repository.

Strings are modelled as `List Char` (`Str`).  Python's `str.lower` is modelled
with `Char.toLower` applied characterwise (the filenames in question are
ASCII), Python's substring test `sub in s` by `inStr` (a linear first-match
search mirroring `str.find`), and `str.endswith` / the glob pattern `*X`
by `tailMatch` (a name matches the pattern `*X` exactly when it ends with
`X`, for ordinary, non-hidden file names).
-/

set_option maxRecDepth 4000

/-- Strings are modelled as lists of characters. -/
abbrev Str := List Char

/-- Coerce a Lean string literal to the `List Char` model. -/
def str (s : String) : Str := s.data

/-- Python `s.lower()` (characterwise, ASCII range). -/
def lowerStr (s : Str) : Str := s.map Char.toLower

/-- Python `s.upper()` (characterwise, ASCII range). -/
def upperStr (s : Str) : Str := s.map Char.toUpper

/-- `leadsWith pat s` is true iff `pat` occurs at the very start of `s`. -/
def leadsWith : Str → Str → Bool
  | [], _ => true
  | _ :: _, [] => false
  | p :: ps, c :: cs => p == c && leadsWith ps cs

/-- Python `s.find(sub)`: the least index at which `sub` occurs in `s`
(`none` models the return value `-1`). -/
def strFind (sub : Str) : Str → Option Nat
  | [] => if leadsWith sub [] then some 0 else none
  | c :: cs =>
    if leadsWith sub (c :: cs) then some 0
    else (strFind sub cs).map (· + 1)

/-- Python `sub in s` (substring membership). -/
def inStr (sub s : Str) : Bool := (strFind sub s).isSome

/-- `tailMatch s pat` is true iff `s` ends with `pat`; this models the glob
pattern `*pat` on ordinary file names. -/
def tailMatch (s pat : Str) : Bool := leadsWith pat.reverse s.reverse

/-- One entry of the `CATEGORIES` table of `generate_gallery.py`
(`src/generate_gallery.py` lines 11-47): id, display name, icon,
and the keyword (`patterns`) list. -/
structure Rule where
  id : Str
  name : Str
  icon : Str
  patterns : List Str
deriving DecidableEq, Repr

/-- The `CATEGORIES` table of `src/generate_gallery.py` lines 11-47, in its
declaration order (Python dicts preserve insertion order). -/
def CATEGORIES : List Rule :=
  [ ⟨str "members", str "Group Members", str "people-fill",
      [str "members-", str "member-"]⟩,
    ⟨str "temple", str "Temple & Premises", str "building",
      [str "temple-", str "head-temple-", str "salmon-gate-"]⟩,
    ⟨str "fuji", str "Mount Fuji", str "mountain",
      [str "mount-fuji-", str "fuji-"]⟩,
    ⟨str "travel", str "Journey & Travel", str "airplane",
      [str "cathay-", str "hongkong-", str "narita-", str "airport",
       str "CX-", str "wagon-"]⟩,
    ⟨str "accommodation", str "Hotel & Dining", str "house-heart",
      [str "fujiyen-hotel", str "dinner-", str "meal-", str "food"]⟩,
    ⟨str "local", str "Local Sights", str "geo-alt",
      [str "fujinomiya-", str "waterfall", str "vending", str "streets"]⟩,
    ⟨str "misc", str "Other Moments", str "camera", []⟩ ]

/-- A rule matches iff one of its keywords is a substring of the (already
lower-cased) filename (`src/generate_gallery.py` lines 56-58). -/
def ruleMatches (r : Rule) (fl : Str) : Bool :=
  r.patterns.any (fun p => inStr p fl)

/-- `categorize_image` of `src/generate_gallery.py` lines 49-60: lower-case
the filename, scan the rules in table order skipping `misc`, return the id of
the first rule with a matching keyword, else `misc`. -/
def categorize_image (filename : Str) : Str :=
  let fl := lowerStr filename
  match CATEGORIES.find? (fun r => !(r.id == str "misc") && ruleMatches r fl) with
  | some r => r.id
  | none => str "misc"

/-- Spec-side categorizer (§4.1 of the spec): the id of the first rule in
declared order one of whose keywords is a substring of the lower-cased
filename, with the catch-all id when no rule matches. -/
def specFirstMatch (filename : Str) : Str :=
  match CATEGORIES.find? (fun r => ruleMatches r (lowerStr filename)) with
  | some r => r.id
  | none => str "misc"

/-- The category ids in table declaration order. -/
def catIds : List Str := CATEGORIES.map Rule.id

/-- The grouping loop of `generate_gallery_html` (`src/generate_gallery.py`
lines 81-85): `categorized images cat` holds, in input order, exactly the
images appended to `categorized[cat]`, i.e. those with `categorize_image`
result `cat`. -/
def categorized (images : List Str) (cat : Str) : List Str :=
  images.filter (fun img => categorize_image img == cat)

/-- Decimal rendering of a count as spliced into the HTML text. -/
def natStr (n : Nat) : Str := (toString n).data

/-- Python `Path.stem` for ordinary (non-hidden) file names: the name with the
last dot and what follows removed; a name with no dot is unchanged. -/
def stemStr (s : Str) : Str :=
  match s.reverse.dropWhile (fun c => !(c == '.')) with
  | [] => s
  | _ :: rest => rest.reverse

/-- `.replace('-', ' ').replace('_', ' ')` of line 112. -/
def dashesToSpaces (s : Str) : Str :=
  s.map (fun c => if c == '-' || c == '_' then ' ' else c)

/-- Python `str.title()` on ASCII text: upper-case the first letter of each
letter run, lower-case the following letters. -/
def titleAux : Bool → Str → Str
  | _, [] => []
  | prev, c :: cs =>
    (if c.isAlpha then (if prev then Char.toLower c else Char.toUpper c) else c)
      :: titleAux c.isAlpha cs

/-- Python `str.title()` (ASCII). -/
def titleStr (s : Str) : Str := titleAux false s

/-- The alt text of line 112:
`img.stem.replace('-', ' ').replace('_', ' ').title()`. -/
def altText (name : Str) : Str := titleStr (dashesToSpaces (stemStr name))

/-- `img.as_posix()` for a scanned file of the converted directory. -/
def imgPath (name : Str) : Str := str "assets/images/gallery/converted/" ++ name

/-- The "All" filter button of lines 91-94, with the total count spliced in. -/
def allButtonHtml (total : Nat) : Str :=
  str "      <div class=\"gallery-filters mb-4 text-center\">\n        <button class=\"btn btn-outline-primary active\" data-filter=\"all\">\n          <i class=\"bi bi-grid-3x3\"></i> All (" ++
    natStr total ++ str ")\n        </button>"

/-- One per-category filter button, lines 99-101. -/
def catButtonHtml (r : Rule) (count : Nat) : Str :=
  str "        <button class=\"btn btn-outline-primary\" data-filter=\"" ++ r.id ++
    str "\">\n          <i class=\"bi bi-" ++ r.icon ++ str "\"></i> " ++ r.name ++
    str " (" ++ natStr count ++ str ")\n        </button>"

/-- The control loop of lines 96-101: the rules whose group is non-empty, in
table order, each paired with its group size. -/
def filterControls (images : List Str) : List (Rule × Nat) :=
  CATEGORIES.filterMap (fun r =>
    let count := (categorized images r.id).length
    if 0 < count then some (r, count) else none)

/-- The image loop of lines 109-121: for each category in table order, its
group in input order, each image tagged with its category id. -/
def galleryItems (images : List Str) : List (Str × Str) :=
  CATEGORIES.flatMap (fun r => (categorized images r.id).map (fun img => (r.id, img)))

/-- One grid item block, lines 114-121. -/
def galleryItemHtml (cat img : Str) : Str :=
  str "        <div class=\"gallery-item\" data-category=\"" ++ cat ++
    str "\">\n          <a href=\"" ++ imgPath img ++
    str "\" class=\"glightbox\" data-gallery=\"tozan-gallery\">\n            <img src=\"" ++
    imgPath img ++ str "\" alt=\"" ++ altText img ++
    str "\" loading=\"lazy\" />\n            <div class=\"gallery-overlay\">\n              <i class=\"bi bi-zoom-in\"></i>\n            </div>\n          </a>\n        </div>\n"

/-- The `html_parts` list assembled at lines 88-123. -/
def galleryHtmlParts (images : List Str) : List Str :=
  allButtonHtml images.length ::
    ((filterControls images).map (fun p => catButtonHtml p.1 p.2) ++
      [str "      </div>\n", str "      <div class=\"gallery-grid\">\n"] ++
      (galleryItems images).map (fun p => galleryItemHtml p.1 p.2) ++
      [str "      </div>"])

/-- `generate_gallery_html` of lines 62-128 as a function of the scanned image
list.  `none` models the early `return` of lines 74-76 (no images: no output
file is produced); otherwise the parts are joined with newlines and written to
`gallery_generated.html`. -/
def generate_gallery_html (images : List Str) : Option Str :=
  if images.isEmpty then none
  else some (List.intercalate (str "\n") (galleryHtmlParts images))

/-- The start marker of `update_gallery` (`src/update_gallery_in_html.py`
line 18). -/
def start_marker : Str := str "<div class=\"gallery-filters mb-4"

/-- The end marker of `update_gallery` (line 19). -/
def end_marker : Str :=
  str "</div>\n    </div>\n  </section>\n\n  <!-- Visa Information Section -->"

/-- The literal closing text inserted after the fragment (line 32). -/
def closing_text : Str :=
  str "\n      </div>\n    </div>\n  </section>\n\n  <!-- Visa Information Section -->"

/-- `update_gallery` of `src/update_gallery_in_html.py` lines 8-42, as a
function from the generated fragment and the current `index.html` content to
the reported success flag and the final `index.html` content.  Both marker
searches happen before anything is written; on the failure path the function
returns before the write, so the document content is unchanged. -/
def update_gallery (gallery_html html_content : Str) : Bool × Str :=
  match strFind start_marker html_content, strFind end_marker html_content with
  | some start_idx, some end_idx =>
    (true,
      html_content.take start_idx ++ gallery_html ++ closing_text ++
        html_content.drop (end_idx + end_marker.length))
  | _, _ => (false, html_content)

/-- The extension list of `src/generate_image_list.py` line 19. -/
def image_extensions : List Str :=
  [str ".jpg", str ".jpeg", str ".png", str ".webp", str ".gif"]

/-- The glob loop of `src/generate_image_list.py` lines 22-24: for each
extension the directory is scanned with the patterns `*ext` and `*EXT`
(`ext.upper()`); an ordinary (non-hidden) file name is picked up iff it ends
with one of those suffixes. -/
def globScanMatches (name : Str) : Bool :=
  image_extensions.any (fun ext => tailMatch name ext || tailMatch name (upperStr ext))

/-- Case-insensitive extension test, in the words of the spec (§6): the name's
extension equals one of the listed extensions in some mix of upper and lower
case, i.e. the lower-cased name ends with the lower-case extension. -/
def extMatchesCaseInsensitive (name : Str) : Bool :=
  image_extensions.any (fun ext => tailMatch (lowerStr name) ext)

/-- The dedup loop of `src/generate_gallery_urls.py` lines 31-37: walk the
parsed list keeping a `seen` set, and append an image to the output only when
it has not been seen before. -/
def uniqueAux (seen : List Str) : List Str → List Str
  | [] => []
  | img :: rest =>
    if img ∈ seen then uniqueAux seen rest
    else img :: uniqueAux (img :: seen) rest

/-- `unique_images` of `src/generate_gallery_urls.py` lines 31-37. -/
def unique_images (images : List Str) : List Str := uniqueAux [] images

/-- Spec-side dedup, in the words of claim C10: keep each filename at its
first occurrence, in input order. -/
def firstOccurrences : List Str → List Str
  | [] => []
  | a :: rest => a :: firstOccurrences (rest.filter (fun b => !(b == a)))
  termination_by l => l.length
  decreasing_by
    simp_wf
    exact Nat.lt_succ_of_le (List.length_filter_le _ _)

example : categorize_image (str "temple-gate.jpg") = str "temple" := by decide
example : categorize_image (str "fuji-view.jpg") = str "fuji" := by decide
example : categorize_image (str "random.jpg") = str "misc" := by decide
example : categorize_image (str "members-temple-fuji-1.jpg") = str "members" := by
  decide
example : categorize_image (str "CX-100.jpg") = str "misc" := by decide
example : unique_images [str "a", str "b", str "a", str "c", str "b"] =
    [str "a", str "b", str "c"] := by decide
example : update_gallery (str "G") (str "no markers here") =
    (false, str "no markers here") := by decide
example : globScanMatches (str "photo.Jpg") = false := by decide
example : globScanMatches (str "photo.JPG") = true := by decide

/-! ### Auxiliary lemmas about the string model -/

theorem char_toNat_ofNat_of_lt (n : Nat) (h : n < 55296) : (Char.ofNat n).toNat = n := by
  rw [Char.ofNat, dif_pos (Or.inl h)]
  rfl

/-- `Char.toLower` never produces the upper-case letter `C`. -/
theorem toLower_ne_C (c : Char) : Char.toLower c ≠ 'C' := by
  intro h
  have h67 : (Char.toLower c).toNat = 67 := by rw [h]; rfl
  unfold Char.toLower at h67
  by_cases hr : c.toNat ≥ 65 ∧ c.toNat ≤ 90
  · rw [if_pos hr] at h67
    rw [char_toNat_ofNat_of_lt (c.toNat + 32) (by omega)] at h67
    omega
  · rw [if_neg hr] at h67
    exact hr ⟨by omega, by omega⟩

theorem leadsWith_head {p : Char} {ps s : Str} (h : leadsWith (p :: ps) s = true) :
    p ∈ s := by
  match s with
  | [] => simp [leadsWith] at h
  | c :: cs =>
    simp only [leadsWith, Bool.and_eq_true, beq_iff_eq] at h
    rw [h.1]
    exact List.mem_cons_self c cs

theorem strFind_some_head_mem {p : Char} {ps s : Str} {i : Nat}
    (h : strFind (p :: ps) s = some i) : p ∈ s := by
  induction s generalizing i with
  | nil => simp [strFind, leadsWith] at h
  | cons c cs ih =>
    rw [strFind] at h
    split at h
    · exact leadsWith_head (by assumption)
    · cases hf : strFind (p :: ps) cs with
      | none => rw [hf] at h; simp at h
      | some k => exact List.mem_cons_of_mem _ (ih hf)

/-- The keyword `CX-` is never a substring of a lower-cased string. -/
theorem inStr_CX_lowerStr (f : Str) : inStr (str "CX-") (lowerStr f) = false := by
  unfold inStr
  cases hf : strFind (str "CX-") (lowerStr f) with
  | none => rfl
  | some i =>
    exfalso
    have hC : 'C' ∈ lowerStr f :=
      @strFind_some_head_mem 'C' ['X', '-'] (lowerStr f) i hf
    obtain ⟨c, _, hc⟩ := List.mem_map.mp hC
    exact toLower_ne_C c hc

theorem find?_congr_on {α : Type} {p q : α → Bool} :
    ∀ {l : List α}, (∀ a ∈ l, p a = q a) → l.find? p = l.find? q
  | [], _ => rfl
  | a :: tl, h => by
    have ha := h a (List.mem_cons_self a tl)
    have htl := find?_congr_on (fun b hb => h b (List.mem_cons_of_mem a hb))
    cases hq : q a with
    | true => rw [List.find?_cons_of_pos tl (ha.trans hq), List.find?_cons_of_pos tl hq]
    | false =>
      rw [List.find?_cons_of_neg tl (by simp [ha, hq]),
        List.find?_cons_of_neg tl (by simp [hq])]
      exact htl

/-- Skipping `misc` in the scan loop is immaterial: the catch-all has no
keywords, so the guarded and the unguarded first-match scans agree. -/
theorem categorize_eq_specFirstMatch (f : Str) :
    categorize_image f = specFirstMatch f := by
  simp only [categorize_image, specFirstMatch]
  have h : ∀ r ∈ CATEGORIES,
      (!(r.id == str "misc") && ruleMatches r (lowerStr f)) =
        ruleMatches r (lowerStr f) := by
    intro r hr
    fin_cases hr <;> rfl
  rw [find?_congr_on h]

/-- In a list whose keys are distinct, `find?` never returns an element whose
key is that of an element strictly past a known match. -/
theorem find?_earlier_key_ne {α β : Type} (key : α → β) (l : List α) (p : α → Bool) :
    ∀ (i j : Nat) (hi : i < l.length) (hj : j < l.length), i < j →
      p (l.get ⟨i, hi⟩) = true → (l.map key).Nodup →
      ∀ r, l.find? p = some r → key r ≠ key (l.get ⟨j, hj⟩) := by
  induction l with
  | nil => intro i _ hi; exact absurd hi (Nat.not_lt_zero i)
  | cons a tl ih =>
    intro i j hi hj hij hp hnd r hfind
    simp only [List.map_cons, List.nodup_cons] at hnd
    obtain ⟨hka, hndt⟩ := hnd
    obtain ⟨j', rfl⟩ : ∃ j', j = j' + 1 := ⟨j - 1, by omega⟩
    have hj' : j' < tl.length := by simpa using hj
    show key r ≠ key (tl.get ⟨j', hj'⟩)
    cases i with
    | zero =>
      have hpa : p a = true := hp
      rw [List.find?_cons_of_pos tl hpa] at hfind
      cases hfind
      intro hEq
      exact hka (hEq ▸ List.mem_map_of_mem key (List.get_mem tl j' hj'))
    | succ i' =>
      have hi' : i' < tl.length := by simpa using hi
      cases hpa : p a with
      | true =>
        rw [List.find?_cons_of_pos tl hpa] at hfind
        cases hfind
        intro hEq
        exact hka (hEq ▸ List.mem_map_of_mem key (List.get_mem tl j' hj'))
      | false =>
        rw [List.find?_cons_of_neg tl (by simp [hpa])] at hfind
        have hpi : p (tl.get ⟨i', hi'⟩) = true := hp
        exact ih i' j' hi' hj' (by omega) hpi hndt r hfind

theorem categories_ids_nodup : (CATEGORIES.map Rule.id).Nodup := by decide

/-! ### Claim C1 -/

/-- C1, counterexample: the filename `members-temple-fuji-1.jpg` contains the
keyword `temple-` of the rule at index 1 (`temple`) and the keyword `fuji-` of
the rule at index 2 (`fuji`); `temple` precedes `fuji` in table order, yet the
returned category is not `temple`'s (it is `members`'s, an even earlier
match), so the claim's "the returned category is R's" fails as stated. -/
theorem c1_first_match_counterexample :
    str "temple-" ∈ (CATEGORIES.get ⟨1, by decide⟩).patterns ∧
    str "fuji-" ∈ (CATEGORIES.get ⟨2, by decide⟩).patterns ∧
    inStr (str "temple-") (lowerStr (str "members-temple-fuji-1.jpg")) = true ∧
    inStr (str "fuji-") (lowerStr (str "members-temple-fuji-1.jpg")) = true ∧
    categorize_image (str "members-temple-fuji-1.jpg") ≠
      (CATEGORIES.get ⟨1, by decide⟩).id ∧
    categorize_image (str "members-temple-fuji-1.jpg") = str "members" := by
  decide

/-- C1 (amended): the categorizer lower-cases the filename, iterates the rules
in declared table order and returns the id of the first rule one of whose
keywords is a substring of the lower-cased filename (catch-all `misc` when none
matches); consequently, if a rule at index `i` matches then the returned
category is never that of any rule at a later index `j` — it is the matching
rule's id or that of an even earlier matching rule. -/
theorem c1_categorize_first_match (f : Str) :
    categorize_image f = specFirstMatch f ∧
    ∀ (i j : Nat) (hi : i < CATEGORIES.length) (hj : j < CATEGORIES.length),
      i < j → ruleMatches (CATEGORIES.get ⟨i, hi⟩) (lowerStr f) = true →
      categorize_image f ≠ (CATEGORIES.get ⟨j, hj⟩).id := by
  refine ⟨categorize_eq_specFirstMatch f, ?_⟩
  intro i j hi hj hij hm
  rw [categorize_eq_specFirstMatch f]
  unfold specFirstMatch
  cases hfind : CATEGORIES.find? (fun r => ruleMatches r (lowerStr f)) with
  | none =>
    rw [List.find?_eq_none] at hfind
    exact absurd hm (by simpa using hfind _ (List.get_mem CATEGORIES i hi))
  | some r =>
    exact find?_earlier_key_ne Rule.id CATEGORIES _ i j hi hj hij hm
      categories_ids_nodup r hfind

/-- C1, witness: `temple-1.jpg` matches the `temple` rule (index 1), so the
result is not the id of the later `fuji` rule (index 2). -/
theorem c1_categorize_first_match_witness :
    categorize_image (str "temple-1.jpg") ≠ str "fuji" := by
  have h := (c1_categorize_first_match (str "temple-1.jpg")).2 1 2
    (by decide) (by decide) (by decide) (by decide)
  exact h

/-! ### Claim C9 -/

/-- C9: the travel keyword `CX-` of the `CATEGORIES` table can never match:
keywords are tested as substrings of the lower-cased filename and `CX-`
contains upper-case characters, which `lower()` never produces; in particular
`CX-100.jpg`, which contains no other travel keyword, is categorized `misc`,
not `travel`. -/
theorem c9_cx_keyword_never_matches :
    (∃ r ∈ CATEGORIES, r.id = str "travel" ∧ str "CX-" ∈ r.patterns) ∧
    (∀ f : Str, inStr (str "CX-") (lowerStr f) = false) ∧
    categorize_image (str "CX-100.jpg") = str "misc" ∧
    categorize_image (str "CX-100.jpg") ≠ str "travel" := by
  exact ⟨by decide, fun f => inStr_CX_lowerStr f, by decide, by decide⟩

/-! ### Claim C10 -/

theorem mem_of_mem_firstOccurrences : ∀ (l : List Str) (x : Str),
    x ∈ firstOccurrences l → x ∈ l := by
  intro l
  induction l using firstOccurrences.induct with
  | case1 => intro x h; simp [firstOccurrences] at h
  | case2 a rest ih =>
    intro x h
    rw [firstOccurrences] at h
    rcases List.mem_cons.mp h with rfl | h2
    · exact List.mem_cons_self _ _
    · exact List.mem_cons_of_mem _ (List.mem_of_mem_filter (ih x h2))

theorem nodup_firstOccurrences : ∀ l : List Str, (firstOccurrences l).Nodup := by
  intro l
  induction l using firstOccurrences.induct with
  | case1 => simp [firstOccurrences]
  | case2 a rest ih =>
    rw [firstOccurrences]
    refine List.nodup_cons.mpr ⟨?_, ih⟩
    intro ha
    have h2 := mem_of_mem_firstOccurrences _ _ ha
    have h3 := List.of_mem_filter h2
    simp at h3

theorem mem_firstOccurrences_of_mem : ∀ (l : List Str) (x : Str),
    x ∈ l → x ∈ firstOccurrences l := by
  intro l
  induction l using firstOccurrences.induct with
  | case1 => intro x h; simp at h
  | case2 a rest ih =>
    intro x h
    rw [firstOccurrences]
    rcases List.mem_cons.mp h with rfl | h2
    · exact List.mem_cons_self _ _
    · by_cases hxa : x = a
      · subst hxa; exact List.mem_cons_self _ _
      · refine List.mem_cons_of_mem _ (ih x ?_)
        exact List.mem_filter.mpr ⟨h2, by simp [hxa]⟩

/-- The code's seen-set loop computes the first-occurrence sublist of the part
of the input not yet seen. -/
theorem uniqueAux_eq_firstOccurrences :
    ∀ (l seen : List Str),
      uniqueAux seen l = firstOccurrences (l.filter (fun b => !decide (b ∈ seen))) := by
  intro l
  induction l with
  | nil =>
    intro seen
    rw [List.filter_nil, firstOccurrences]
    rfl
  | cons img rest ih =>
    intro seen
    by_cases h : img ∈ seen
    · rw [show uniqueAux seen (img :: rest) = uniqueAux seen rest from by
        simp only [uniqueAux, if_pos h]]
      rw [List.filter_cons_of_neg (by simp [h])]
      exact ih seen
    · rw [show uniqueAux seen (img :: rest) =
          img :: uniqueAux (img :: seen) rest from by
        simp only [uniqueAux, if_neg h]]
      rw [List.filter_cons_of_pos (by simp [h]), firstOccurrences]
      congr 1
      rw [ih (img :: seen), List.filter_filter]
      congr 1
      refine List.filter_congr ?_
      intro b _
      by_cases hb : b = img
      · subst hb; simp
      · by_cases hbs : b ∈ seen <;> simp [hb, hbs]

/-- C10: the dedup loop of `generate_gallery_urls.py` equals the spec-side
first-occurrence filter: each filename appears at most once, membership is
unchanged, and distinct filenames keep the relative order of their first
occurrences in the input. -/
theorem c10_unique_images_dedup (l : List Str) :
    unique_images l = firstOccurrences l ∧
    (unique_images l).Nodup ∧
    (∀ x, x ∈ unique_images l ↔ x ∈ l) := by
  have he : unique_images l = firstOccurrences l := by
    have h := uniqueAux_eq_firstOccurrences l []
    simpa [unique_images] using h
  refine ⟨he, ?_, ?_⟩
  · rw [he]; exact nodup_firstOccurrences l
  · intro x
    rw [he]
    exact ⟨mem_of_mem_firstOccurrences l x, mem_firstOccurrences_of_mem l x⟩

/-! ### Claim C6 -/

/-- C6: if either splice marker is absent from the target document, the update
step reports failure and the document content is left unchanged (the write
only happens after both marker checks succeed). -/
theorem c6_update_gallery_missing_marker (g doc : Str)
    (h : strFind start_marker doc = none ∨ strFind end_marker doc = none) :
    update_gallery g doc = (false, doc) := by
  cases hs : strFind start_marker doc with
  | none =>
    unfold update_gallery
    rw [hs]
  | some s =>
    cases he : strFind end_marker doc with
    | none =>
      unfold update_gallery
      rw [hs, he]
    | some e =>
      rw [hs, he] at h
      rcases h with h | h <;> simp at h

/-- C6, witness: a document containing neither marker is reported as a failure
and returned unchanged. -/
theorem c6_update_gallery_missing_marker_witness :
    update_gallery (str "FRAGMENT") (str "<html><body>plain</body></html>") =
      (false, str "<html><body>plain</body></html>") := by
  exact c6_update_gallery_missing_marker _ _ (Or.inl (by decide))

/-! ### Claim C8 -/

/-- C8, counterexample: `photo.Jpg` has extension `.Jpg`, which equals `.jpg`
up to case, yet neither glob pattern of the scan (`*.jpg`, `*.JPG`) matches
it, so the scan omits the file. -/
theorem c8_mixed_case_counterexample :
    extMatchesCaseInsensitive (str "photo.Jpg") = true ∧
    globScanMatches (str "photo.Jpg") = false := by
  decide

/-- C8 (amended): the glob-based scan includes every filename that ends with
one of the five extensions written entirely in lower case or entirely in upper
case (mixed-case extensions are not matched). -/
theorem c8_glob_scan_extensions (name ext : Str) (hext : ext ∈ image_extensions)
    (h : tailMatch name ext = true ∨ tailMatch name (upperStr ext) = true) :
    globScanMatches name = true := by
  unfold globScanMatches
  rw [List.any_eq_true]
  exact ⟨ext, hext, by rcases h with h | h <;> simp [h]⟩

/-- C8, witness: `photo.JPG` (upper-case variant) is included by the scan. -/
theorem c8_glob_scan_extensions_witness :
    globScanMatches (str "photo.JPG") = true := by
  exact c8_glob_scan_extensions (str "photo.JPG") (str ".jpg") (by decide)
    (Or.inr (by decide))

/-! ### Claim C7 -/

/-- C7: with zero input images the renderer emits no category controls and an
empty grid (no image items), and `generate_gallery_html` itself stops without
producing any output. -/
theorem c7_zero_images :
    filterControls [] = [] ∧ galleryItems [] = [] ∧
    generate_gallery_html [] = none :=
  ⟨rfl, rfl, rfl⟩

/-! ### Claims C2-C5: grouping and rendering -/

/-- Every filename is assigned a category id that occurs in the table. -/
theorem categorize_mem_catIds (f : Str) : categorize_image f ∈ catIds := by
  simp only [categorize_image]
  cases hfind : CATEGORIES.find?
      (fun r => !(r.id == str "misc") && ruleMatches r (lowerStr f)) with
  | some r => exact List.mem_map_of_mem Rule.id (List.mem_of_find?_eq_some hfind)
  | none => decide

/-- Grouping by a list of distinct keys covering the image of `f`: the group
sizes add up to the length of the list. -/
theorem sum_length_groups {α β : Type} [BEq β] [LawfulBEq β] :
    ∀ (keys : List β), keys.Nodup → ∀ (l : List α) (f : α → β),
      (∀ a ∈ l, f a ∈ keys) →
      (keys.map (fun k => (l.filter (fun a => f a == k)).length)).sum = l.length := by
  intro keys
  induction keys with
  | nil =>
    intro _ l f hcov
    match l with
    | [] => rfl
    | a :: _ => exact absurd (hcov a (List.mem_cons_self _ _)) (List.not_mem_nil _)
  | cons k ks ih =>
    intro hnd l f hcov
    rw [List.nodup_cons] at hnd
    obtain ⟨hk, hnd⟩ := hnd
    rw [List.map_cons, List.sum_cons]
    have hsplit := @List.length_eq_length_filter_add _ l (fun a => f a == k)
    have hrest :
        (ks.map (fun j => (l.filter (fun a => f a == j)).length)).sum =
          (l.filter (fun a => !(f a == k))).length := by
      rw [← ih hnd (l.filter (fun a => !(f a == k))) f (by
        intro a ha
        have h1 := List.mem_of_mem_filter ha
        have h2 := List.of_mem_filter ha
        rcases List.mem_cons.mp (hcov a h1) with h4 | h4
        · rw [h4] at h2; simp at h2
        · exact h4)]
      congr 1
      refine List.map_congr_left ?_
      intro j hj
      have hjk : j ≠ k := fun hEq => hk (hEq ▸ hj)
      congr 1
      rw [List.filter_filter]
      refine (List.filter_congr ?_).symm
      intro a _
      by_cases hfa : f a = j
      · simp [hfa, hjk]
      · simp [hfa]
    rw [hrest]
    omega

/-- Dropping the zero-count entries does not change the total of the counts. -/
theorem sum_filterMap_pos {β : Type} :
    ∀ (keys : List β) (g : β → Nat),
      ((keys.filterMap (fun k => if 0 < g k then some (k, g k) else none)).map
        (fun p => p.2)).sum = (keys.map g).sum := by
  intro keys g
  induction keys with
  | nil => rfl
  | cons k ks ih =>
    by_cases h : 0 < g k
    · simp only [List.filterMap_cons, if_pos h, List.map_cons, List.sum_cons, ih]
    · simp only [List.filterMap_cons, if_neg h, List.map_cons, List.sum_cons, ih]
      omega

/-- The surviving entries of the zero-count filter are the positive-count keys
in their original order. -/
theorem map_fst_filterMap_pos {β : Type} :
    ∀ (keys : List β) (g : β → Nat),
      (keys.filterMap (fun k => if 0 < g k then some (k, g k) else none)).map
        (fun p => p.1) = keys.filter (fun k => decide (0 < g k)) := by
  intro keys g
  induction keys with
  | nil => rfl
  | cons k ks ih =>
    by_cases h : 0 < g k
    · simp only [List.filterMap_cons, if_pos h, List.map_cons, ih]
      rw [List.filter_cons_of_pos (by simp [h])]
    · simp only [List.filterMap_cons, if_neg h, ih]
      rw [List.filter_cons_of_neg (by simp [h])]

/-- Filtering a key-tagged concatenation by one of the distinct keys recovers
exactly that key's block, in order. -/
theorem flatMap_filter_key {β γ : Type} [BEq β] [LawfulBEq β] :
    ∀ (keys : List β), keys.Nodup → ∀ (g : β → List γ) (k : β), k ∈ keys →
      ((keys.flatMap (fun j => (g j).map (fun x => (j, x)))).filter
        (fun p => p.1 == k)).map (fun p => p.2) = g k := by
  intro keys
  induction keys with
  | nil => intro _ g k hk; exact absurd hk (List.not_mem_nil k)
  | cons j js ih =>
    intro hnd g k hk
    rw [List.nodup_cons] at hnd
    obtain ⟨hj, hnd⟩ := hnd
    rw [List.flatMap_cons, List.filter_append, List.map_append]
    rcases List.mem_cons.mp hk with rfl | hk2
    · have h1 : ((g k).map (fun x => (k, x))).filter (fun p => p.1 == k) =
          (g k).map (fun x => (k, x)) := by
        rw [List.filter_eq_self]
        intro p hp
        obtain ⟨x, _, rfl⟩ := List.mem_map.mp hp
        simp
      have h2 : (js.flatMap (fun i => (g i).map (fun x => (i, x)))).filter
          (fun p => p.1 == k) = [] := by
        rw [List.filter_eq_nil_iff]
        intro p hp
        obtain ⟨i, hi, hpi⟩ := List.mem_flatMap.mp hp
        obtain ⟨x, _, rfl⟩ := List.mem_map.mp hpi
        simp only [beq_iff_eq]
        intro hik
        exact hj (hik ▸ hi)
      rw [h1, h2, List.map_nil, List.append_nil, List.map_map]
      simp
    · have hjk : j ≠ k := fun hEq => hj (hEq ▸ hk2)
      have h1 : ((g j).map (fun x => (j, x))).filter (fun p => p.1 == k) = [] := by
        rw [List.filter_eq_nil_iff]
        intro p hp
        obtain ⟨x, _, rfl⟩ := List.mem_map.mp hp
        simp [hjk]
      rw [h1, List.map_nil, List.nil_append]
      exact ih hnd g k hk2

/-- C2: each input image lands in exactly one category group (the catch-all
guarantees totality), and the group sizes over all categories add up to the
number of input images. -/
theorem c2_partition (images : List Str) :
    (∀ img, img ∈ images → ∃! c, c ∈ catIds ∧ img ∈ categorized images c) ∧
    (catIds.map (fun c => (categorized images c).length)).sum = images.length := by
  constructor
  · intro img hmem
    refine ⟨categorize_image img, ⟨categorize_mem_catIds img, ?_⟩, ?_⟩
    · exact List.mem_filter.mpr ⟨hmem, by simp⟩
    · rintro c ⟨_, hc⟩
      have h := List.of_mem_filter hc
      exact (beq_iff_eq.mp h).symm
  · exact sum_length_groups catIds categories_ids_nodup images categorize_image
      (fun a _ => categorize_mem_catIds a)

/-- C2, witness: in a concrete two-image run, `temple-gate.jpg` lies in
exactly one category group. -/
theorem c2_partition_witness :
    ∃! c, c ∈ catIds ∧
      str "temple-gate.jpg" ∈ categorized [str "temple-gate.jpg", str "random.jpg"] c := by
  exact (c2_partition [str "temple-gate.jpg", str "random.jpg"]).1
    (str "temple-gate.jpg") (by decide)

/-- C3: the "all" control displays the total input count (it heads the
rendered parts), and that total equals the sum of the counts displayed on the
per-category controls. -/
theorem c3_all_count (images : List Str) (h : images ≠ []) :
    (galleryHtmlParts images).head? = some (allButtonHtml images.length) ∧
    images.length = ((filterControls images).map (fun p => p.2)).sum := by
  refine ⟨rfl, ?_⟩
  have h1 : ((filterControls images).map (fun p => p.2)).sum =
      (CATEGORIES.map (fun r => (categorized images r.id).length)).sum :=
    sum_filterMap_pos CATEGORIES (fun r => (categorized images r.id).length)
  have h2 : (CATEGORIES.map (fun r => (categorized images r.id).length)).sum =
      (catIds.map (fun c => (categorized images c).length)).sum := by
    rw [catIds, List.map_map]
    rfl
  rw [h1, h2]
  exact (sum_length_groups catIds categories_ids_nodup images categorize_image
    (fun a _ => categorize_mem_catIds a)).symm

/-- C3, witness: for the one-image input the "all" count is 1 and equals the
sum of the per-category counts. -/
theorem c3_all_count_witness :
    (galleryHtmlParts [str "temple-gate.jpg"]).head? =
      some (allButtonHtml [str "temple-gate.jpg"].length) ∧
    [str "temple-gate.jpg"].length =
      ((filterControls [str "temple-gate.jpg"]).map (fun p => p.2)).sum := by
  exact c3_all_count [str "temple-gate.jpg"] (by decide)

/-- C4: a category whose group is empty produces no filter control at all —
its id never appears among the rendered controls. -/
theorem c4_zero_count_omitted (images : List Str) (r : Rule)
    (hr : r ∈ CATEGORIES) (h : (categorized images r.id).length = 0) :
    r.id ∉ (filterControls images).map (fun p => p.1.id) := by
  intro hmem
  obtain ⟨p, hp, hpid⟩ := List.mem_map.mp hmem
  simp only [filterControls, List.mem_filterMap] at hp
  obtain ⟨a, _, ha⟩ := hp
  by_cases hpos : 0 < (categorized images a.id).length
  · rw [if_pos hpos] at ha
    cases ha
    rw [hpid] at hpos
    omega
  · rw [if_neg hpos] at ha
    exact Option.noConfusion ha

/-- C4, witness: with only a temple image, the `travel` category (whose group
is empty) produces no control. -/
theorem c4_zero_count_omitted_witness :
    str "travel" ∉ (filterControls [str "temple-gate.jpg"]).map (fun p => p.1.id) := by
  exact c4_zero_count_omitted [str "temple-gate.jpg"]
    ⟨str "travel", str "Journey & Travel", str "airplane",
      [str "cathay-", str "hongkong-", str "narita-", str "airport",
       str "CX-", str "wagon-"]⟩ (by decide) (by decide)

/-- C5: the rendered controls are a sublist of the rule table (so they appear
in declaration order); the image blocks carrying a category's id are exactly
that category's group in order (so blocks are grouped by category in
declaration order), and each group is a sublist of the input (so blocks keep
the input's insertion order within a category). -/
theorem c5_declaration_order (images : List Str) :
    List.Sublist ((filterControls images).map (fun p => p.1)) CATEGORIES ∧
    ∀ r ∈ CATEGORIES,
      ((galleryItems images).filter (fun p => p.1 == r.id)).map (fun p => p.2) =
          categorized images r.id ∧
        List.Sublist (categorized images r.id) images := by
  constructor
  · have h := map_fst_filterMap_pos CATEGORIES
      (fun r => (categorized images r.id).length)
    rw [show (filterControls images).map (fun p => p.1) =
        CATEGORIES.filter (fun k => decide (0 < (categorized images k.id).length))
      from h]
    exact List.filter_sublist CATEGORIES
  · intro r hr
    constructor
    · have hitems : galleryItems images =
          catIds.flatMap (fun c => (categorized images c).map (fun x => (c, x))) := by
        rw [catIds, List.flatMap_map]
        rfl
      rw [hitems]
      exact flatMap_filter_key catIds categories_ids_nodup
        (fun c => categorized images c) r.id (List.mem_map_of_mem Rule.id hr)
    · exact List.filter_sublist images

/-- C5, witness: in a concrete run the blocks tagged `temple` are exactly the
temple group, which is a sublist of the input. -/
theorem c5_declaration_order_witness :
    ((galleryItems [str "temple-gate.jpg"]).filter
        (fun p => p.1 == str "temple")).map (fun p => p.2) =
      categorized [str "temple-gate.jpg"] (str "temple") ∧
    List.Sublist (categorized [str "temple-gate.jpg"] (str "temple"))
      [str "temple-gate.jpg"] := by
  exact (c5_declaration_order [str "temple-gate.jpg"]).2
    ⟨str "temple", str "Temple & Premises", str "building",
      [str "temple-", str "head-temple-", str "salmon-gate-"]⟩ (by decide)
